import Mathlib

/-!
Verification of the paper-trading session engine
(src/services/paper_trading_service.py, src/schemas/paper_trading.py,
src/models/paper_trade.py) against its specification.

The service is embedded shallowly:
* machine floats are idealised as rationals (ℚ); Python float division,
  which raises ZeroDivisionError on a zero denominator, is modelled by
  pydiv returning Option;
* the SQLAlchemy store is explicit state (DBState) threaded through the
  operations; a Python exception escaping before db.commit() leaves the
  persisted state unchanged, so such an operation is modelled as
  returning none;
* the Binance price oracle is a function String → Option ℚ (none models
  a raised exception for that symbol);
* datetimes are rationals counting seconds, so that the service's
  (exit_time - entry_time).total_seconds() / 3600 becomes (e - s) / 3600.
-/

attribute [local semireducible] Rat.add Rat.mul Rat.inv Rat.sub

/-- Trade lifecycle status, from schemas/paper_trading.py TradeStatus. -/
inductive TradeStatus where
  | OPEN
  | CLOSED
  | CANCELLED
deriving DecidableEq

/-- Trade side, from schemas/paper_trading.py TradeSide. -/
inductive TradeSide where
  | BUY
  | SELL
deriving DecidableEq

/-- A row of paper_trades, from models/paper_trade.py PaperTrade. -/
structure PaperTrade where
  id : Nat
  session_id : Nat
  symbol : String
  entry_price : ℚ
  exit_price : Option ℚ
  quantity : ℚ
  side : TradeSide
  status : TradeStatus
  stop_loss : Option ℚ
  take_profit : Option ℚ
  entry_time : ℚ
  exit_time : Option ℚ
  realized_pnl : Option ℚ
  unrealized_pnl : Option ℚ
  roi_percentage : Option ℚ
deriving DecidableEq

/-- A row of paper_trading_sessions, from models/paper_trade.py
PaperTradingSession (strategy_config and timestamps are irrelevant to the
claims and omitted). -/
structure PaperTradingSession where
  id : Nat
  name : String
  trading_pairs : List String
  risk_percentage : ℚ
  initial_balance : ℚ
  current_balance : ℚ
  max_position_size : ℚ
  total_pnl : ℚ
  active : Bool
deriving DecidableEq

/-- The persisted store: both tables plus the autoincrement counter that
assigns primary keys to new trades. -/
structure DBState where
  sessions : List PaperTradingSession
  trades : List PaperTrade
  next_id : Nat
deriving DecidableEq

/-- Request body for opening a trade, from schemas/paper_trading.py
PaperTradeCreate. -/
structure PaperTradeCreate where
  session_id : Nat
  symbol : String
  entry_price : ℚ
  quantity : ℚ
  side : TradeSide
  stop_loss : Option ℚ
  take_profit : Option ℚ
deriving DecidableEq

/-- The distinct ValueError raise sites of
PaperTradingService.create_trade, told apart by their messages. -/
inductive TradeError where
  | sessionNotFound
  | symbolNotAllowed
  | limitExceeded
  | insufficientBalance
deriving DecidableEq

/-- db.query(PaperTradingSession).filter(id == session_id).first(),
the body of PaperTradingService.get_session. -/
def get_session (db : DBState) (session_id : Nat) : Option PaperTradingSession :=
  db.sessions.find? (fun s => decide (s.id = session_id))

/-- The ORM mutating a fetched session row and committing: every stored row
with that primary key takes the new value. -/
def replaceSession (ss : List PaperTradingSession) (s' : PaperTradingSession) :
    List PaperTradingSession :=
  ss.map (fun s => if s.id = s'.id then s' else s)

/-- The ORM mutating a fetched trade row and committing. -/
def replaceTrade (ts : List PaperTrade) (t' : PaperTrade) : List PaperTrade :=
  ts.map (fun t => if t.id = t'.id then t' else t)

/-- PaperTradingService.create_trade: validates the session, the symbol, the
position-size cap and (for BUY) the balance, then persists a new OPEN trade
and debits the balance for a BUY. -/
def create_trade (db : DBState) (trade : PaperTradeCreate) (now : ℚ) :
    Except TradeError (PaperTrade × DBState) :=
  match get_session db trade.session_id with
  | none => .error .sessionNotFound
  | some session =>
    if trade.symbol ∉ session.trading_pairs then .error .symbolNotAllowed
    else
      let trade_value := trade.entry_price * trade.quantity
      if trade_value > session.max_position_size then .error .limitExceeded
      else if trade.side = TradeSide.BUY ∧ trade_value > session.current_balance then
        .error .insufficientBalance
      else
        let db_trade : PaperTrade :=
          { id := db.next_id
            session_id := trade.session_id
            symbol := trade.symbol
            entry_price := trade.entry_price
            exit_price := none
            quantity := trade.quantity
            side := trade.side
            status := TradeStatus.OPEN
            stop_loss := trade.stop_loss
            take_profit := trade.take_profit
            entry_time := now
            exit_time := none
            realized_pnl := none
            unrealized_pnl := none
            roi_percentage := none }
        let session' :=
          if trade.side = TradeSide.BUY then
            { session with current_balance := session.current_balance - trade_value }
          else session
        .ok (db_trade,
          { sessions := replaceSession db.sessions session'
            trades := db.trades ++ [db_trade]
            next_id := db.next_id + 1 })

/-- PaperTradingService.close_trade: returns none (Python None) when the
trade is missing or not OPEN; otherwise sets exit fields, computes the
side-dependent realized pnl and roi, credits the session balance with
exit_value (BUY) or entry_value (SELL) and adds the pnl to total_pnl. -/
def close_trade (db : DBState) (trade_id : Nat) (exit_price : ℚ) (now : ℚ) :
    Option (PaperTrade × DBState) :=
  match db.trades.find? (fun t => decide (t.id = trade_id)) with
  | none => none
  | some trade =>
    if trade.status ≠ TradeStatus.OPEN then none
    else
      match get_session db trade.session_id with
      | none => none
      | some session =>
        let trade_value := trade.quantity * exit_price
        let entry_value := trade.quantity * trade.entry_price
        let trade' :=
          if trade.side = TradeSide.BUY then
            { trade with
              exit_price := some exit_price
              exit_time := some now
              status := TradeStatus.CLOSED
              realized_pnl := some (trade_value - entry_value)
              roi_percentage := some ((trade_value - entry_value) / entry_value * 100) }
          else
            { trade with
              exit_price := some exit_price
              exit_time := some now
              status := TradeStatus.CLOSED
              realized_pnl := some (entry_value - trade_value)
              roi_percentage := some ((entry_value - trade_value) / entry_value * 100) }
        let session' :=
          { session with
            current_balance := session.current_balance +
              (if trade.side = TradeSide.BUY then trade_value else entry_value)
            total_pnl := session.total_pnl +
              (if trade.side = TradeSide.BUY then trade_value - entry_value
               else entry_value - trade_value) }
        some (trade',
          { db with
            trades := replaceTrade db.trades trade'
            sessions := replaceSession db.sessions session' })

/-- One loop iteration of PaperTradingService.update_unrealized_pnl: fetch
the current price for the trade's symbol (none models the Binance client
raising) and recompute unrealized_pnl and roi_percentage with the same
side-dependent formulas as close_trade. -/
def refreshTrade (oracle : String → Option ℚ) (t : PaperTrade) : Option PaperTrade :=
  match oracle t.symbol with
  | none => none
  | some current_price =>
    let trade_value := t.quantity * current_price
    let entry_value := t.quantity * t.entry_price
    if t.side = TradeSide.BUY then
      some { t with
             unrealized_pnl := some (trade_value - entry_value)
             roi_percentage := some ((trade_value - entry_value) / entry_value * 100) }
    else
      some { t with
             unrealized_pnl := some (entry_value - trade_value)
             roi_percentage := some ((entry_value - trade_value) / entry_value * 100) }

/-- The whole trade table after update_unrealized_pnl's loop: OPEN trades of
the session are refreshed, all other rows kept. The loop has no exception
handler, so a single failed price lookup escapes before db.commit() and
nothing at all is persisted: that run is none. -/
def refreshList (oracle : String → Option ℚ) (session_id : Nat) :
    List PaperTrade → Option (List PaperTrade)
  | [] => some []
  | t :: ts =>
    if t.session_id = session_id ∧ t.status = TradeStatus.OPEN then
      match refreshTrade oracle t with
      | none => none
      | some t' => (refreshList oracle session_id ts).map (fun ts' => t' :: ts')
    else (refreshList oracle session_id ts).map (fun ts' => t :: ts')

/-- PaperTradingService.update_unrealized_pnl as observed through the store:
some db' when every price lookup succeeded and the batch committed, none
when an exception escaped the loop (no commit, state unchanged). -/
def update_unrealized_pnl (oracle : String → Option ℚ) (db : DBState)
    (session_id : Nat) : Option DBState :=
  (refreshList oracle session_id db.trades).map (fun ts => { db with trades := ts })

/-- Python float division: raises ZeroDivisionError (none) when the
denominator is zero. -/
def pydiv (a b : ℚ) : Option ℚ :=
  if b = 0 then none else some (a / b)

/-- A nonnegative-or-infinite float value: the metrics fields that the code
can set to float('inf'). -/
inductive PyFloat where
  | val (q : ℚ)
  | posInf
deriving DecidableEq

/-- Exact value of the Sharpe-ratio float: coeff * sqrt radicand. The code
computes mean(returns)/std(returns)*sqrt(365), which for a nonzero
population variance v equals mean * sqrt (365 / v); a plain rational q is
represented as q * sqrt 1. -/
structure SqrtVal where
  coeff : ℚ
  radicand : ℚ
deriving DecidableEq

/-- A plain rational as a SqrtVal. -/
def SqrtVal.ofRat (q : ℚ) : SqrtVal := ⟨q, 1⟩

/-- The flat result record, from schemas/paper_trading.py
PerformanceMetrics. -/
structure PerformanceMetrics where
  total_trades : Nat
  winning_trades : Nat
  losing_trades : Nat
  win_rate : ℚ
  total_pnl : ℚ
  total_roi_percentage : ℚ
  sharpe_ratio : SqrtVal
  max_drawdown : ℚ
  avg_trade_duration : ℚ
  best_trade_roi : ℚ
  worst_trade_roi : ℚ
  current_drawdown : ℚ
  risk_reward_ratio : PyFloat
  profit_factor : PyFloat
  avg_win_size : ℚ
  avg_loss_size : ℚ
  largest_win : ℚ
  largest_loss : ℚ
  consecutive_wins : ℤ
  consecutive_losses : ℤ
  recovery_factor : PyFloat
deriving DecidableEq

/-- The all-zero record returned when no trade is CLOSED (the
`if not closed_trades` branch of calculate_performance_metrics). -/
def zeroMetrics : PerformanceMetrics :=
  { total_trades := 0
    winning_trades := 0
    losing_trades := 0
    win_rate := 0
    total_pnl := 0
    total_roi_percentage := 0
    sharpe_ratio := SqrtVal.ofRat 0
    max_drawdown := 0
    avg_trade_duration := 0
    best_trade_roi := 0
    worst_trade_roi := 0
    current_drawdown := 0
    risk_reward_ratio := PyFloat.val 0
    profit_factor := PyFloat.val 0
    avg_win_size := 0
    avg_loss_size := 0
    largest_win := 0
    largest_loss := 0
    consecutive_wins := 0
    consecutive_losses := 0
    recovery_factor := PyFloat.val 0 }

/-- The fields of a CLOSED trade that the metrics loop reads.
Extraction fails (Python TypeError) when a CLOSED row lacks them. -/
structure ClosedData where
  realized_pnl : ℚ
  roi_percentage : ℚ
  entry_time : ℚ
  exit_time : ℚ
deriving DecidableEq

/-- Read the pnl, roi and exit time off one CLOSED trade row. -/
def extractClosed (t : PaperTrade) : Option ClosedData :=
  match t.realized_pnl, t.roi_percentage, t.exit_time with
  | some pnl, some roi, some et => some ⟨pnl, roi, t.entry_time, et⟩
  | _, _, _ => none

/-- Read the fields off every CLOSED trade, failing if any row lacks one. -/
def extractAll : List PaperTrade → Option (List ClosedData)
  | [] => some []
  | t :: ts =>
    match extractClosed t with
    | none => none
    | some d => (extractAll ts).map (fun ds => d :: ds)

/-- winning_trades: closed trades with realized_pnl > 0. -/
def winnersOf (datas : List ClosedData) : List ClosedData :=
  datas.filter (fun d => decide (d.realized_pnl > 0))

/-- losing_trades: closed trades with realized_pnl <= 0. -/
def losersOf (datas : List ClosedData) : List ClosedData :=
  datas.filter (fun d => decide (d.realized_pnl ≤ 0))

/-- win_sizes: the winners' realized pnls. -/
def winSizesOf (datas : List ClosedData) : List ℚ :=
  (winnersOf datas).map (fun d => d.realized_pnl)

/-- loss_sizes: the losers' absolute realized pnls. -/
def lossSizesOf (datas : List ClosedData) : List ℚ :=
  (losersOf datas).map (fun d => |d.realized_pnl|)

/-- avg_win: mean of win_sizes, 0 when there are no winners. -/
def avgWinOf (datas : List ClosedData) : ℚ :=
  if winSizesOf datas = [] then 0
  else (winSizesOf datas).sum / ((winSizesOf datas).length : ℚ)

/-- avg_loss: mean of loss_sizes, 0 when there are no losers. -/
def avgLossOf (datas : List ClosedData) : ℚ :=
  if lossSizesOf datas = [] then 0
  else (lossSizesOf datas).sum / ((lossSizesOf datas).length : ℚ)

/-- Python max over a nonempty list (the empty case is unreachable behind
the code's `if xs else 0` guards). -/
def listMax : List ℚ → ℚ
  | [] => 0
  | x :: xs => xs.foldl max x

/-- Python min over a nonempty list. -/
def listMin : List ℚ → ℚ
  | [] => 0
  | x :: xs => xs.foldl min x

/-- np.cumsum: running sums from the given accumulator. -/
def cumsumFrom (acc : ℚ) : List ℚ → List ℚ
  | [] => []
  | x :: xs => (acc + x) :: cumsumFrom (acc + x) xs

/-- np.cumsum of a pnl list. -/
def cumsum (l : List ℚ) : List ℚ := cumsumFrom 0 l

/-- The drawdown loop of calculate_performance_metrics: peak starts at
float('-inf') (modelled by none, which every rational exceeds), each step
raises the peak to the running maximum and takes
(peak - ret)/peak when peak > 0 else 0, keeping the largest value seen. -/
def mddGo : List ℚ → Option ℚ → ℚ → ℚ
  | [], _, m => m
  | r :: rs, peak, m =>
    let p := match peak with
      | none => r
      | some pk => if r > pk then r else pk
    let dd := if p > 0 then (p - r) / p else 0
    mddGo rs (some p) (max m dd)

/-- max_drawdown (as a fraction, before the * 100) over the cumulative
pnl list. -/
def maxDrawdownFrac (cums : List ℚ) : ℚ := mddGo cums none 0

/-- The consecutive-streak loop: cur is the signed current streak, w and l
the largest winning and losing streaks seen so far. -/
def streaksGo : List ℚ → ℤ → ℤ → ℤ → ℤ × ℤ
  | [], _, w, l => (w, l)
  | pnl :: rest, cur, w, l =>
    let cur' : ℤ :=
      if pnl > 0 then (if cur > 0 then cur + 1 else 1)
      else (if cur < 0 then cur - 1 else -1)
    streaksGo rest cur' (max w (if cur' > 0 then cur' else 0))
      (max l (if cur' < 0 then -cur' else 0))

/-- The record built at the end of calculate_performance_metrics, once the
profit factor has been computed (all other divisions in the function are
guarded by the code itself: emptiness guards, `if avg_loss`, `if peak > 0`,
`if np.std(returns) != 0`, `if max_drawdown > 0`). The Sharpe branch guard
std != 0 is equivalent to a nonzero population variance. -/
def metricsRecord (datas : List ClosedData) (profit_factor : PyFloat) :
    PerformanceMetrics :=
  let total_pnl := (datas.map (fun d => d.realized_pnl)).sum
  let win_rate : ℚ :=
    if datas = [] then 0
    else ((winnersOf datas).length : ℚ) / (datas.length : ℚ)
  let rois := datas.map (fun d => d.roi_percentage)
  let durations := datas.map (fun d => (d.exit_time - d.entry_time) / 3600)
  let avg_duration := if durations = [] then 0 else durations.sum / (durations.length : ℚ)
  let avg_win := avgWinOf datas
  let avg_loss := avgLossOf datas
  let max_dd := maxDrawdownFrac (cumsum (datas.map (fun d => d.realized_pnl)))
  let streaks := streaksGo (datas.map (fun d => d.realized_pnl)) 0 0 0
  let returns := datas.map (fun d => d.roi_percentage / 100)
  let sharpe : SqrtVal :=
    if 1 < returns.length then
      (let m := returns.sum / (returns.length : ℚ)
       let var := (returns.map (fun r => (r - m) * (r - m))).sum / (returns.length : ℚ)
       if var = 0 then SqrtVal.ofRat 0 else { coeff := m, radicand := 365 / var })
    else SqrtVal.ofRat 0
  { total_trades := datas.length
    winning_trades := (winnersOf datas).length
    losing_trades := (losersOf datas).length
    win_rate := win_rate * 100
    total_pnl := total_pnl
    total_roi_percentage := rois.sum
    sharpe_ratio := sharpe
    max_drawdown := max_dd * 100
    avg_trade_duration := avg_duration
    best_trade_roi := if rois = [] then 0 else listMax rois
    worst_trade_roi := if rois = [] then 0 else listMin rois
    current_drawdown := max_dd * 100
    risk_reward_ratio := if avg_loss = 0 then PyFloat.posInf else PyFloat.val (avg_win / avg_loss)
    profit_factor := profit_factor
    avg_win_size := avg_win
    avg_loss_size := avg_loss
    largest_win := if winSizesOf datas = [] then 0 else listMax (winSizesOf datas)
    largest_loss := if lossSizesOf datas = [] then 0 else listMax (lossSizesOf datas)
    consecutive_wins := streaks.1
    consecutive_losses := streaks.2
    recovery_factor :=
      if max_dd > 0 then PyFloat.val (total_pnl / max_dd) else PyFloat.posInf }

/-- The nonempty branch of calculate_performance_metrics. The profit factor
`sum(win_sizes) / sum(loss_sizes) if loss_sizes else float('inf')` is the
one unguarded float division: when losers exist it divides by
sum(loss_sizes) whether or not that sum is zero. -/
def metricsBody (datas : List ClosedData) : Option PerformanceMetrics :=
  if lossSizesOf datas = [] then some (metricsRecord datas PyFloat.posInf)
  else
    (pydiv (winSizesOf datas).sum (lossSizesOf datas).sum).map
      (fun q => metricsRecord datas (PyFloat.val q))

/-- The session filter of the metrics query. -/
def sessionTrades (db : DBState) (session_id : Nat) : List PaperTrade :=
  db.trades.filter (fun t => decide (t.session_id = session_id))

/-- The optional entry_time window filters of the metrics query. -/
def windowFilter (start_date end_date : Option ℚ) (ts : List PaperTrade) :
    List PaperTrade :=
  let ts1 := match start_date with
    | none => ts
    | some s => ts.filter (fun t => decide (s ≤ t.entry_time))
  match end_date with
  | none => ts1
  | some e => ts1.filter (fun t => decide (t.entry_time ≤ e))

/-- closed_trades: the session's trades in the window with status CLOSED. -/
def closedTradesOf (db : DBState) (session_id : Nat)
    (start_date end_date : Option ℚ) : List PaperTrade :=
  (windowFilter start_date end_date (sessionTrades db session_id)).filter
    (fun t => decide (t.status = TradeStatus.CLOSED))

/-- PaperTradingService.calculate_performance_metrics: all-zero record when
no trade is CLOSED, none when the computation raises, otherwise the filled
record. -/
def calculate_performance_metrics (db : DBState) (session_id : Nat)
    (start_date end_date : Option ℚ) : Option PerformanceMetrics :=
  let closed := closedTradesOf db session_id start_date end_date
  if closed.isEmpty then some zeroMetrics
  else
    match extractAll closed with
    | none => none
    | some datas => metricsBody datas

/-- One API operation against the store. -/
inductive Op where
  | create (req : PaperTradeCreate) (now : ℚ)
  | close (trade_id : Nat) (exit_price : ℚ) (now : ℚ)

/-- Execute one operation; a rejected or failed operation leaves the
persisted state unchanged. -/
def stepOp (db : DBState) : Op → DBState
  | .create req now =>
    match create_trade db req now with
    | .ok (_, db') => db'
    | .error _ => db
  | .close tid p now =>
    match close_trade db tid p now with
    | some (_, db') => db'
    | none => db

/-- Execute a sequence of operations without concurrent interleaving. -/
def runOps (db : DBState) : List Op → DBState
  | [] => db
  | op :: ops => runOps (stepOp db op) ops

/-- Sum of entry_price * quantity over the session's OPEN BUY trades. -/
def openBuyNotional (ts : List PaperTrade) (sid : Nat) : ℚ :=
  (ts.map (fun t =>
    if t.session_id = sid ∧ t.status = TradeStatus.OPEN ∧ t.side = TradeSide.BUY
    then t.entry_price * t.quantity else 0)).sum

/-- Sum of realized_pnl over the session's CLOSED trades. -/
def closedPnlSum (ts : List PaperTrade) (sid : Nat) : ℚ :=
  (ts.map (fun t =>
    if t.session_id = sid ∧ t.status = TradeStatus.CLOSED
    then t.realized_pnl.getD 0 else 0)).sum

/-- Sum of quantity * exit_price over the session's CLOSED SELL trades. -/
def closedSellExitNotional (ts : List PaperTrade) (sid : Nat) : ℚ :=
  (ts.map (fun t =>
    if t.session_id = sid ∧ t.status = TradeStatus.CLOSED ∧ t.side = TradeSide.SELL
    then t.quantity * (t.exit_price.getD 0) else 0)).sum

/-- The balance-conservation identity exactly as the specification states
it: current_balance plus the open BUY notional equals initial_balance plus
the closed trades' realized pnl. -/
def claimedConservation (db : DBState) : Prop :=
  ∀ s ∈ db.sessions,
    s.current_balance + openBuyNotional db.trades s.id
      = s.initial_balance + closedPnlSum db.trades s.id

/-- The conservation identity the code actually maintains: a closed SELL
credits the balance with entry_value while recording entry_value -
exit_value as pnl, so the exit notional of every closed SELL trade stays
in the balance on top of the claimed right-hand side. -/
def balanceConservation (db : DBState) : Prop :=
  ∀ s ∈ db.sessions,
    s.current_balance + openBuyNotional db.trades s.id
      = s.initial_balance + closedPnlSum db.trades s.id
        + closedSellExitNotional db.trades s.id

/-- Store well-formedness: primary keys are unique and the autoincrement
counter is ahead of every stored trade id. -/
def wfDB (db : DBState) : Prop :=
  (db.sessions.map (fun s => s.id)).Nodup ∧
  (db.trades.map (fun t => t.id)).Nodup ∧
  ∀ t ∈ db.trades, t.id < db.next_id

/-- Running maxima continuing from a given peak. -/
def prefixMaxFrom (a : ℚ) : List ℚ → List ℚ
  | [] => []
  | x :: xs => (max a x) :: prefixMaxFrom (max a x) xs

/-- Running maxima of a list, as the claimed drawdown formula reads them. -/
def prefixMax : List ℚ → List ℚ
  | [] => []
  | x :: xs => x :: prefixMaxFrom x xs

/-- The claimed drawdown sequence: (peak_i - cum_i)/peak_i against the
running peak, taken as 0 whenever the peak is not positive. -/
def drawdowns (cums : List ℚ) : List ℚ :=
  List.zipWith (fun p c => if p > 0 then (p - c) / p else 0) (prefixMax cums) cums

/-- A session used by the concrete scenarios. -/
def baseSession : PaperTradingSession :=
  { id := 0
    name := "s"
    trading_pairs := ["A", "B"]
    risk_percentage := 1
    initial_balance := 1000
    current_balance := 1000
    max_position_size := 100
    total_pnl := 0
    active := true }

/-- An OPEN BUY trade used by the concrete scenarios. -/
def baseTrade : PaperTrade :=
  { id := 0
    session_id := 0
    symbol := "A"
    entry_price := 10
    exit_price := none
    quantity := 1
    side := TradeSide.BUY
    status := TradeStatus.OPEN
    stop_loss := none
    take_profit := none
    entry_time := 0
    exit_time := none
    realized_pnl := none
    unrealized_pnl := none
    roi_percentage := none }

/-- A CLOSED trade with the given id, pnl and roi. -/
def closedTrade (i : Nat) (pnl roi : ℚ) : PaperTrade :=
  { baseTrade with
    id := i
    status := TradeStatus.CLOSED
    exit_price := some 1
    exit_time := some 3600
    realized_pnl := some pnl
    roi_percentage := some roi }

/-- A store holding one fresh session and nothing else. -/
def dbEmpty : DBState := { sessions := [baseSession], trades := [], next_id := 0 }

/-- A SELL admission for the conservation counterexample. -/
def sellReq : PaperTradeCreate :=
  { session_id := 0, symbol := "A", entry_price := 10, quantity := 1,
    side := TradeSide.SELL, stop_loss := none, take_profit := none }

/-- A BUY admission for the conservation witness. -/
def buyReq : PaperTradeCreate :=
  { session_id := 0, symbol := "A", entry_price := 10, quantity := 1,
    side := TradeSide.BUY, stop_loss := none, take_profit := none }

/-- Open one SELL trade, then close it at exit price 5. -/
def opsSell : List Op := [Op.create sellReq 0, Op.close 0 5 1]

/-- Open one BUY trade, then close it at exit price 5. -/
def opsBuy : List Op := [Op.create buyReq 0, Op.close 0 5 1]

/-- One session with one OPEN BUY trade stored. -/
def dbOneOpen : DBState :=
  { sessions := [baseSession], trades := [baseTrade], next_id := 1 }

/-- The store after closing dbOneOpen's trade at exit price 12. -/
def dbOneClosed : DBState :=
  ((close_trade dbOneOpen 0 12 1).map Prod.snd).getD dbOneOpen

/-- Closed trades for the zero-division counterexample: a winner and a
loser whose realized_pnl is exactly 0. -/
def dbZeroLoss : DBState :=
  { sessions := [baseSession]
    trades := [closedTrade 0 10 10, closedTrade 1 0 0]
    next_id := 2 }

/-- Closed trades whose pnl sequence 100, -50, 100, -120 has cumulative
sums 100, 50, 150, 30. -/
def dbDrawdown : DBState :=
  { sessions := [baseSession]
    trades := [closedTrade 0 100 10, closedTrade 1 (-50) (-5),
               closedTrade 2 100 10, closedTrade 3 (-120) (-12)]
    next_id := 4 }

/-- The extracted rows of dbDrawdown's closed trades. -/
def datasDrawdown : List ClosedData :=
  (extractAll (closedTradesOf dbDrawdown 0 none none)).getD []

/-- Two OPEN trades on different symbols for the refresh claims. -/
def dbTwoOpen : DBState :=
  { sessions := [baseSession]
    trades := [baseTrade, { baseTrade with id := 1, symbol := "B", quantity := 2 }]
    next_id := 2 }

/-- A price oracle that fails on symbol A and quotes symbol B. -/
def oracleFailA : String → Option ℚ :=
  fun s => if s = "B" then some 5 else none

/-- A price oracle quoting every symbol at 12. -/
def oracleAll12 : String → Option ℚ := fun _ => some 12

/-- The store refreshed through oracleAll12. -/
def dbTwoOpenRefreshed : DBState :=
  (update_unrealized_pnl oracleAll12 dbTwoOpen 0).getD dbTwoOpen

/-- An admission whose notional 200 exceeds baseSession's cap of 100. -/
def overLimitReq : PaperTradeCreate :=
  { session_id := 0, symbol := "A", entry_price := 200, quantity := 1,
    side := TradeSide.BUY, stop_loss := none, take_profit := none }

/-- One session with one OPEN SELL trade stored. -/
def dbOneOpenSell : DBState :=
  { sessions := [baseSession]
    trades := [{ baseTrade with side := TradeSide.SELL }]
    next_id := 1 }

instance (db : DBState) : Decidable (claimedConservation db) := by
  unfold claimedConservation; infer_instance

instance (db : DBState) : Decidable (balanceConservation db) := by
  unfold balanceConservation; infer_instance

instance (db : DBState) : Decidable (wfDB db) := by
  unfold wfDB; infer_instance

/-- The trade row returned by the first close in the single-fire
scenario. -/
def tcOneClosed : PaperTrade :=
  ((close_trade dbOneOpen 0 12 1).map Prod.fst).getD baseTrade

/-- The trade rows produced by closing the BUY and SELL variants of
dbOneOpen's trade at exit price 12. -/
def tcSellClosed : PaperTrade :=
  ((close_trade dbOneOpenSell 0 12 1).map Prod.fst).getD baseTrade

/-- The trade and store after closing dbOneOpen's trade at the losing
exit price 2. -/
def tcLowClosed : PaperTrade :=
  ((close_trade dbOneOpen 0 2 1).map Prod.fst).getD baseTrade

/-- The store after closing dbOneOpen's trade at exit price 2. -/
def dbLowClosed : DBState :=
  ((close_trade dbOneOpen 0 2 1).map Prod.snd).getD dbOneOpen

/-- A store whose only closed trade is a winner. -/
def dbAllWin : DBState :=
  { sessions := [baseSession], trades := [closedTrade 0 10 10], next_id := 1 }

/-- The extracted rows of dbAllWin's closed trades. -/
def datasAllWin : List ClosedData :=
  (extractAll (closedTradesOf dbAllWin 0 none none)).getD []

/-- The record computed on the drawdown scenario store. -/
def mDrawdown : PerformanceMetrics :=
  (calculate_performance_metrics dbDrawdown 0 none none).getD zeroMetrics

/-- What one committed refresh writes (and is allowed to write) for each
trade row: rows not OPEN in the session are untouched; OPEN rows get only
unrealized_pnl and roi_percentage replaced, computed from the oracle price
by the side-dependent close formulas. -/
def refreshSpec (oracle : String → Option ℚ) (sid : Nat)
    (t t' : PaperTrade) : Prop :=
  (¬ (t.session_id = sid ∧ t.status = TradeStatus.OPEN) → t' = t) ∧
  ((t.session_id = sid ∧ t.status = TradeStatus.OPEN) →
    ∃ p, oracle t.symbol = some p ∧
      t' = { t with
        unrealized_pnl := some (if t.side = TradeSide.BUY
          then t.quantity * p - t.quantity * t.entry_price
          else t.quantity * t.entry_price - t.quantity * p)
        roi_percentage := some (if t.side = TradeSide.BUY
          then (t.quantity * p - t.quantity * t.entry_price) / (t.quantity * t.entry_price) * 100
          else (t.quantity * t.entry_price - t.quantity * p) / (t.quantity * t.entry_price) * 100) })

/-- The refreshed image of baseTrade at oracle price 12. -/
def tRefreshed : PaperTrade :=
  (refreshTrade oracleAll12 baseTrade).getD baseTrade

lemma replaceTrade_eq_self {ts : List PaperTrade} {tc : PaperTrade}
    (h : ∀ t ∈ ts, t.id ≠ tc.id) : replaceTrade ts tc = ts := by
  induction ts with
  | nil => rfl
  | cons t ts ih =>
    have ht : t.id ≠ tc.id := h t (List.mem_cons_self t ts)
    have hrest := ih (fun x hx => h x (List.mem_cons_of_mem _ hx))
    simp only [replaceTrade, List.map_cons] at hrest ⊢
    rw [if_neg ht]
    simpa [replaceTrade] using hrest

lemma find?_replaceTrade {ts : List PaperTrade} {u tc : PaperTrade} {tid : Nat}
    (hf : ts.find? (fun t => decide (t.id = tid)) = some u)
    (hid : tc.id = u.id) :
    (replaceTrade ts tc).find? (fun t => decide (t.id = tid)) = some tc := by
  have hu : u.id = tid := by simpa using List.find?_some hf
  induction ts with
  | nil => simp at hf
  | cons t ts ih =>
    by_cases h : t.id = tid
    · rw [List.find?_cons_of_pos _ (by simp [h])] at hf
      obtain rfl : t = u := by simpa using hf
      simp only [replaceTrade, List.map_cons, if_pos (hid.symm)]
      exact List.find?_cons_of_pos _ (by simp [hid, hu])
    · rw [List.find?_cons_of_neg _ (by simp [h])] at hf
      have hrec := ih hf
      simp only [replaceTrade, List.map_cons] at hrec ⊢
      rw [if_neg (by rw [hid, hu]; exact h)]
      rw [List.find?_cons_of_neg _ (by simp [h])]
      exact hrec

lemma find?_replaceSession {ss : List PaperTradingSession}
    {s s' : PaperTradingSession} {sid : Nat}
    (hf : ss.find? (fun r => decide (r.id = sid)) = some s)
    (hid : s'.id = s.id) :
    (replaceSession ss s').find? (fun r => decide (r.id = sid)) = some s' := by
  have hs : s.id = sid := by simpa using List.find?_some hf
  induction ss with
  | nil => simp at hf
  | cons r ss ih =>
    by_cases h : r.id = sid
    · rw [List.find?_cons_of_pos _ (by simp [h])] at hf
      obtain rfl : r = s := by simpa using hf
      simp only [replaceSession, List.map_cons, if_pos (hid.symm)]
      exact List.find?_cons_of_pos _ (by simp [hid, hs])
    · rw [List.find?_cons_of_neg _ (by simp [h])] at hf
      have hrec := ih hf
      simp only [replaceSession, List.map_cons] at hrec ⊢
      rw [if_neg (by rw [hid, hs]; exact h)]
      rw [List.find?_cons_of_neg _ (by simp [h])]
      exact hrec

lemma sum_map_replaceTrade (g : PaperTrade → ℚ) :
    ∀ {ts : List PaperTrade} {u tc : PaperTrade} {tid : Nat},
    (ts.map (fun t => t.id)).Nodup →
    ts.find? (fun t => decide (t.id = tid)) = some u →
    tc.id = tid →
    ((replaceTrade ts tc).map g).sum = (ts.map g).sum - g u + g tc := by
  intro ts
  induction ts with
  | nil => intro u tc tid _ hf; simp at hf
  | cons t ts ih =>
    intro u tc tid hnd hf hid
    have hnd2 : (t.id :: ts.map (fun t => t.id)).Nodup := by simpa using hnd
    have hnd' : (ts.map (fun t => t.id)).Nodup := (List.nodup_cons.mp hnd2).2
    by_cases h : t.id = tid
    · rw [List.find?_cons_of_pos _ (by simp [h])] at hf
      obtain rfl : t = u := by simpa using hf
      have hxne : ∀ x ∈ ts, x.id ≠ tc.id := by
        intro x hx hc
        have hmem : x.id ∈ ts.map (fun t => t.id) := List.mem_map_of_mem _ hx
        rw [hc, hid, ← h] at hmem
        exact (List.nodup_cons.mp hnd2).1 hmem
      have hrest : replaceTrade ts tc = ts := replaceTrade_eq_self hxne
      simp only [replaceTrade, List.map_cons] at hrest ⊢
      rw [if_pos (h.trans hid.symm), hrest]
      simp only [List.sum_cons]
      ring
    · rw [List.find?_cons_of_neg _ (by simp [h])] at hf
      have hrec := ih hnd' hf hid
      simp only [replaceTrade, List.map_cons] at hrec ⊢
      rw [if_neg (by rw [hid]; exact h)]
      simp only [List.sum_cons]
      rw [hrec]
      ring

lemma mem_replaceSession {ss : List PaperTradingSession}
    {s' r : PaperTradingSession} (hr : r ∈ replaceSession ss s') :
    ∃ r₀ ∈ ss, r = if r₀.id = s'.id then s' else r₀ := by
  simp only [replaceSession, List.mem_map] at hr
  obtain ⟨r₀, h₀, hr⟩ := hr
  exact ⟨r₀, h₀, hr.symm⟩

lemma create_trade_ok {db : DBState} {req : PaperTradeCreate} {now : ℚ}
    {t : PaperTrade} {db' : DBState}
    (h : create_trade db req now = .ok (t, db')) :
    ∃ s, get_session db req.session_id = some s
      ∧ req.symbol ∈ s.trading_pairs
      ∧ ¬ req.entry_price * req.quantity > s.max_position_size
      ∧ ¬ (req.side = TradeSide.BUY ∧ req.entry_price * req.quantity > s.current_balance)
      ∧ t = { id := db.next_id
              session_id := req.session_id
              symbol := req.symbol
              entry_price := req.entry_price
              exit_price := none
              quantity := req.quantity
              side := req.side
              status := TradeStatus.OPEN
              stop_loss := req.stop_loss
              take_profit := req.take_profit
              entry_time := now
              exit_time := none
              realized_pnl := none
              unrealized_pnl := none
              roi_percentage := none }
      ∧ db' = { sessions := replaceSession db.sessions
                  (if req.side = TradeSide.BUY then
                    { s with current_balance :=
                        s.current_balance - req.entry_price * req.quantity }
                   else s)
                trades := db.trades ++ [t]
                next_id := db.next_id + 1 } := by
  simp only [create_trade] at h
  split at h
  · exact absurd h (by simp)
  · rename_i s hs
    split at h
    · exact absurd h (by simp)
    · rename_i hsym
      split at h
      · exact absurd h (by simp)
      · rename_i hlim
        split at h
        · exact absurd h (by simp)
        · rename_i hbal
          rw [Except.ok.injEq, Prod.mk.injEq] at h
          obtain ⟨ht, hdb⟩ := h
          refine ⟨s, hs, by simpa using hsym, hlim, hbal, ht.symm, ?_⟩
          rw [← hdb, ← ht]

lemma close_trade_some {db : DBState} {tid : Nat} {p now : ℚ}
    {tc : PaperTrade} {db' : DBState}
    (h : close_trade db tid p now = some (tc, db')) :
    ∃ u s, db.trades.find? (fun t => decide (t.id = tid)) = some u
      ∧ u.status = TradeStatus.OPEN
      ∧ get_session db u.session_id = some s
      ∧ tc = (if u.side = TradeSide.BUY then
              { u with exit_price := some p
                       exit_time := some now
                       status := TradeStatus.CLOSED
                       realized_pnl := some (u.quantity * p - u.quantity * u.entry_price)
                       roi_percentage := some ((u.quantity * p - u.quantity * u.entry_price) / (u.quantity * u.entry_price) * 100) }
            else
              { u with exit_price := some p
                       exit_time := some now
                       status := TradeStatus.CLOSED
                       realized_pnl := some (u.quantity * u.entry_price - u.quantity * p)
                       roi_percentage := some ((u.quantity * u.entry_price - u.quantity * p) / (u.quantity * u.entry_price) * 100) })
      ∧ db' = { db with
            trades := replaceTrade db.trades tc
            sessions := replaceSession db.sessions
              { s with
                current_balance := s.current_balance +
                  (if u.side = TradeSide.BUY then u.quantity * p
                   else u.quantity * u.entry_price)
                total_pnl := s.total_pnl +
                  (if u.side = TradeSide.BUY then u.quantity * p - u.quantity * u.entry_price
                   else u.quantity * u.entry_price - u.quantity * p) } } := by
  simp only [close_trade] at h
  split at h
  · exact absurd h (by simp)
  · rename_i u hu
    split at h
    · exact absurd h (by simp)
    · rename_i hstat
      split at h
      · exact absurd h (by simp)
      · rename_i s hs
        rw [Option.some.injEq, Prod.mk.injEq] at h
        obtain ⟨ht, hdb⟩ := h
        refine ⟨u, s, hu, by simpa using hstat, hs, ht.symm, ?_⟩
        rw [← hdb, ← ht]

/-- C6: a create_trade request on an existing session and an allowed symbol
whose notional entry_price * quantity exceeds the session's
max_position_size is rejected with the limit-exceeded error, and the store
is unchanged: no trade row is created and the balance is not mutated. -/
theorem create_reject_limit (db : DBState) (req : PaperTradeCreate) (now : ℚ)
    (s : PaperTradingSession)
    (hs : get_session db req.session_id = some s)
    (hsym : req.symbol ∈ s.trading_pairs)
    (hlim : req.entry_price * req.quantity > s.max_position_size) :
    create_trade db req now = .error TradeError.limitExceeded
    ∧ stepOp db (Op.create req now) = db := by
  have hc : create_trade db req now = .error TradeError.limitExceeded := by
    simp only [create_trade, hs]
    rw [if_neg (not_not_intro hsym), if_pos hlim]
  exact ⟨hc, by simp [stepOp, hc]⟩

/-- Witness for create_reject_limit: a notional of 200 against a cap of
100 is rejected and leaves the store untouched. -/
theorem create_reject_limit_witness :
    create_trade dbEmpty overLimitReq 0 = .error TradeError.limitExceeded
    ∧ stepOp dbEmpty (Op.create overLimitReq 0) = dbEmpty :=
  create_reject_limit dbEmpty overLimitReq 0 baseSession (by decide) (by decide)
    (by decide)

/-- C2 (amended): a successful close_trade makes any further close of the
same id return None (the code's sentinel for a missing or non-OPEN trade,
with no InvalidStateError raised and no second mutation), and the first
close credits the session balance exactly once: with exit_value for a BUY
and entry_value for a SELL. -/
theorem close_single_fire (db : DBState) (tid : Nat) (p now p2 now2 : ℚ)
    (tc : PaperTrade) (db1 : DBState)
    (h : close_trade db tid p now = some (tc, db1)) :
    close_trade db1 tid p2 now2 = none
    ∧ ∃ s s', get_session db tc.session_id = some s
        ∧ get_session db1 tc.session_id = some s'
        ∧ s'.current_balance = s.current_balance +
            (if tc.side = TradeSide.BUY then tc.quantity * p
             else tc.quantity * tc.entry_price) := by
  obtain ⟨u, s, hu, hstat, hs, htc, hdb⟩ := close_trade_some h
  by_cases hbuy : u.side = TradeSide.BUY
  · rw [if_pos hbuy] at htc
    subst htc
    constructor
    · have hfind := find?_replaceTrade hu (rfl : ({u with
        exit_price := some p, exit_time := some now,
        status := TradeStatus.CLOSED,
        realized_pnl := some (u.quantity * p - u.quantity * u.entry_price),
        roi_percentage := some ((u.quantity * p - u.quantity * u.entry_price) / (u.quantity * u.entry_price) * 100) } : PaperTrade).id = u.id)
      rw [hdb]
      simp only [close_trade]
      rw [hfind]
      simp
    · refine ⟨s, { s with
          current_balance := s.current_balance +
            (if u.side = TradeSide.BUY then u.quantity * p
             else u.quantity * u.entry_price)
          total_pnl := s.total_pnl +
            (if u.side = TradeSide.BUY then u.quantity * p - u.quantity * u.entry_price
             else u.quantity * u.entry_price - u.quantity * p) }, hs, ?_, ?_⟩
      · rw [hdb]
        exact find?_replaceSession hs rfl
      · simp [hbuy]
  · rw [if_neg hbuy] at htc
    subst htc
    constructor
    · have hfind := find?_replaceTrade hu (rfl : ({u with
        exit_price := some p, exit_time := some now,
        status := TradeStatus.CLOSED,
        realized_pnl := some (u.quantity * u.entry_price - u.quantity * p),
        roi_percentage := some ((u.quantity * u.entry_price - u.quantity * p) / (u.quantity * u.entry_price) * 100) } : PaperTrade).id = u.id)
      rw [hdb]
      simp only [close_trade]
      rw [hfind]
      simp
    · refine ⟨s, { s with
          current_balance := s.current_balance +
            (if u.side = TradeSide.BUY then u.quantity * p
             else u.quantity * u.entry_price)
          total_pnl := s.total_pnl +
            (if u.side = TradeSide.BUY then u.quantity * p - u.quantity * u.entry_price
             else u.quantity * u.entry_price - u.quantity * p) }, hs, ?_, ?_⟩
      · rw [hdb]
        exact find?_replaceSession hs rfl
      · simp [hbuy]

/-- Witness for close_single_fire: closing dbOneOpen's trade 0 at price 12
succeeds, a repeat close returns None, and the balance gained exactly one
credit. -/
theorem close_single_fire_witness :
    close_trade dbOneClosed 0 15 2 = none
    ∧ ∃ s s', get_session dbOneOpen tcOneClosed.session_id = some s
        ∧ get_session dbOneClosed tcOneClosed.session_id = some s'
        ∧ s'.current_balance = s.current_balance +
            (if tcOneClosed.side = TradeSide.BUY then tcOneClosed.quantity * 12
             else tcOneClosed.quantity * tcOneClosed.entry_price) :=
  close_single_fire dbOneOpen 0 12 1 15 2 tcOneClosed dbOneClosed (by decide)

/-- C2 counterexample: the first close of trade 0 succeeds, but the second
close returns Python None — the very same sentinel close_trade returns for
a trade id that does not exist at all — so no InvalidStateError (nor any
exception) distinguishes "already closed" from "not found"; the claim that
the second call fails with InvalidStateError is false of the code. -/
theorem close_single_fire_counterexample :
    (close_trade dbOneOpen 0 12 1).isSome = true
    ∧ close_trade dbOneClosed 0 12 2 = none
    ∧ close_trade dbOneOpen 99 12 2 = none := by decide

/-- C7: closing two OPEN trades with identical quantity and entry price but
opposite sides at the same exit price yields realized pnls that are exact
negations of each other. -/
theorem close_buy_sell_symmetry (db1 db2 : DBState) (tid1 tid2 : Nat)
    (p now1 now2 : ℚ) (c1 c2 : PaperTrade) (e1 e2 : DBState)
    (h1 : close_trade db1 tid1 p now1 = some (c1, e1))
    (h2 : close_trade db2 tid2 p now2 = some (c2, e2))
    (hq : c1.quantity = c2.quantity) (he : c1.entry_price = c2.entry_price)
    (hb : c1.side = TradeSide.BUY) (hsell : c2.side = TradeSide.SELL) :
    ∃ x, c1.realized_pnl = some x ∧ c2.realized_pnl = some (-x) := by
  obtain ⟨u1, s1, hu1, hst1, hs1, htc1, hdb1⟩ := close_trade_some h1
  obtain ⟨u2, s2, hu2, hst2, hs2, htc2, hdb2⟩ := close_trade_some h2
  by_cases hbuy1 : u1.side = TradeSide.BUY
  · rw [if_pos hbuy1] at htc1
    by_cases hbuy2 : u2.side = TradeSide.BUY
    · exfalso
      rw [if_pos hbuy2] at htc2
      subst htc2
      simp [hbuy2] at hsell
    · rw [if_neg hbuy2] at htc2
      subst htc1
      subst htc2
      simp only at hq he
      refine ⟨u1.quantity * p - u1.quantity * u1.entry_price, by simp, ?_⟩
      simp only [Option.some.injEq]
      rw [hq, he]
      ring
  · exfalso
    rw [if_neg hbuy1] at htc1
    subst htc1
    simp [hbuy1] at hb

/-- Witness for close_buy_sell_symmetry: a BUY and a SELL with entry 10,
quantity 1, both closed at 12, realize 2 and -2. -/
theorem close_buy_sell_symmetry_witness :
    ∃ x, tcOneClosed.realized_pnl = some x ∧ tcSellClosed.realized_pnl = some (-x) :=
  close_buy_sell_symmetry dbOneOpen dbOneOpenSell 0 0 12 1 1
    tcOneClosed tcSellClosed
    (((close_trade dbOneOpen 0 12 1).map Prod.snd).getD dbOneOpen)
    (((close_trade dbOneOpenSell 0 12 1).map Prod.snd).getD dbOneOpenSell)
    (by decide) (by decide) (by decide) (by decide) (by decide) (by decide)

/-- C10: a successful close_trade strictly increases the session's
current_balance whenever the trade has positive quantity and entry price
(as the request schema guarantees) and the exit price is positive: the
balance is credited with the full exit_value for a BUY and the full
entry_value for a SELL, never with the (possibly negative) pnl. -/
theorem close_increases_balance (db : DBState) (tid : Nat) (p now : ℚ)
    (tc : PaperTrade) (db1 : DBState)
    (h : close_trade db tid p now = some (tc, db1))
    (hq : 0 < tc.quantity) (he : 0 < tc.entry_price) (hp : 0 < p) :
    ∃ s s', get_session db tc.session_id = some s
      ∧ get_session db1 tc.session_id = some s'
      ∧ s.current_balance < s'.current_balance := by
  obtain ⟨u, s, hu, hstat, hs, htc, hdb⟩ := close_trade_some h
  have huq : 0 < u.quantity := by
    have := hq
    by_cases hbuy : u.side = TradeSide.BUY <;>
      [rw [if_pos hbuy] at htc; rw [if_neg hbuy] at htc] <;> subst htc <;> simpa using this
  have hue : 0 < u.entry_price := by
    have := he
    by_cases hbuy : u.side = TradeSide.BUY <;>
      [rw [if_pos hbuy] at htc; rw [if_neg hbuy] at htc] <;> subst htc <;> simpa using this
  have hcredit : 0 < (if u.side = TradeSide.BUY then u.quantity * p
      else u.quantity * u.entry_price) := by
    by_cases hbuy : u.side = TradeSide.BUY
    · rw [if_pos hbuy]; exact mul_pos huq hp
    · rw [if_neg hbuy]; exact mul_pos huq hue
  have hsid : tc.session_id = u.session_id := by
    by_cases hbuy : u.side = TradeSide.BUY <;>
      [rw [if_pos hbuy] at htc; rw [if_neg hbuy] at htc] <;> subst htc <;> rfl
  refine ⟨s, { s with
      current_balance := s.current_balance +
        (if u.side = TradeSide.BUY then u.quantity * p
         else u.quantity * u.entry_price)
      total_pnl := s.total_pnl +
        (if u.side = TradeSide.BUY then u.quantity * p - u.quantity * u.entry_price
         else u.quantity * u.entry_price - u.quantity * p) }, ?_, ?_, ?_⟩
  · rw [hsid]; exact hs
  · rw [hsid, hdb]
    exact find?_replaceSession hs rfl
  · exact lt_add_of_pos_right _ hcredit

/-- Witness for close_increases_balance: closing the losing BUY trade of
dbOneOpen (entry 10) at exit price 2 still increases the balance. -/
theorem close_increases_balance_witness :
    ∃ s s', get_session dbOneOpen tcLowClosed.session_id = some s
      ∧ get_session dbLowClosed tcLowClosed.session_id = some s'
      ∧ s.current_balance < s'.current_balance :=
  close_increases_balance dbOneOpen 0 2 1 tcLowClosed dbLowClosed
    (by decide) (by decide) (by decide) (by decide)

/-- C8: whenever the session/window filter leaves no CLOSED trade — no
trades at all, only OPEN or CANCELLED ones, or none inside the window —
calculate_performance_metrics returns the all-zero record and no error. -/
theorem metrics_empty_zero (db : DBState) (sid : Nat) (sd ed : Option ℚ)
    (h : closedTradesOf db sid sd ed = []) :
    calculate_performance_metrics db sid sd ed = some zeroMetrics := by
  simp [calculate_performance_metrics, h]

/-- Witness for metrics_empty_zero: a store holding only OPEN trades. -/
theorem metrics_empty_zero_witness :
    closedTradesOf dbTwoOpen 0 none none = []
    ∧ calculate_performance_metrics dbTwoOpen 0 none none = some zeroMetrics :=
  ⟨by decide, metrics_empty_zero dbTwoOpen 0 none none (by decide)⟩

lemma lossSizesOf_eq_nil_iff (datas : List ClosedData) :
    lossSizesOf datas = [] ↔ losersOf datas = [] := by
  simp [lossSizesOf]

lemma metricsBody_eq_none_iff (datas : List ClosedData) :
    metricsBody datas = none ↔
      lossSizesOf datas ≠ [] ∧ (lossSizesOf datas).sum = 0 := by
  unfold metricsBody
  by_cases hl : lossSizesOf datas = []
  · simp [hl]
  · simp only [if_neg hl, pydiv]
    by_cases hz : (lossSizesOf datas).sum = 0
    · simp [hz, hl]
    · simp [hz, hl]

lemma metricsRecord_profit_factor (datas : List ClosedData) (pf : PyFloat) :
    (metricsRecord datas pf).profit_factor = pf := rfl

lemma metricsRecord_risk_reward (datas : List ClosedData) (pf : PyFloat) :
    (metricsRecord datas pf).risk_reward_ratio =
      if avgLossOf datas = 0 then PyFloat.posInf
      else PyFloat.val (avgWinOf datas / avgLossOf datas) := rfl

lemma metricsRecord_max_drawdown (datas : List ClosedData) (pf : PyFloat) :
    (metricsRecord datas pf).max_drawdown =
      maxDrawdownFrac (cumsum (datas.map (fun d => d.realized_pnl))) * 100 := rfl

lemma calc_metrics_eq_body (db : DBState) (sid : Nat) (sd ed : Option ℚ)
    (datas : List ClosedData)
    (hne : closedTradesOf db sid sd ed ≠ [])
    (hex : extractAll (closedTradesOf db sid sd ed) = some datas) :
    calculate_performance_metrics db sid sd ed = metricsBody datas := by
  have hie : (closedTradesOf db sid sd ed).isEmpty = false := by
    rcases hc : closedTradesOf db sid sd ed with _ | ⟨a, l⟩
    · exact absurd hc hne
    · rfl
  simp [calculate_performance_metrics, hie, hex]

/-- C3 (amended): calculate_performance_metrics never raises on any
collection whose losing side is either empty or adds up to a nonzero
absolute pnl; in those runs profit_factor is the +infinity sentinel when
no trade lost and risk_reward_ratio is the +infinity sentinel when the
average loss is zero. But when losing trades exist and every one of them
has realized_pnl equal to 0, the unguarded division in
`sum(win_sizes) / sum(loss_sizes)` raises ZeroDivisionError. -/
theorem metrics_sentinels (db : DBState) (sid : Nat) (sd ed : Option ℚ)
    (datas : List ClosedData)
    (hne : closedTradesOf db sid sd ed ≠ [])
    (hex : extractAll (closedTradesOf db sid sd ed) = some datas) :
    ((losersOf datas = [] ∨ (lossSizesOf datas).sum ≠ 0) →
      ∃ m, calculate_performance_metrics db sid sd ed = some m
        ∧ (losersOf datas = [] → m.profit_factor = PyFloat.posInf)
        ∧ (avgLossOf datas = 0 → m.risk_reward_ratio = PyFloat.posInf))
    ∧ ((losersOf datas ≠ [] ∧ (lossSizesOf datas).sum = 0) →
      calculate_performance_metrics db sid sd ed = none) := by
  have hcalc := calc_metrics_eq_body db sid sd ed datas hne hex
  constructor
  · intro hor
    by_cases hl : lossSizesOf datas = []
    · refine ⟨metricsRecord datas PyFloat.posInf, ?_, ?_, ?_⟩
      · rw [hcalc]; simp [metricsBody, hl]
      · intro _; exact metricsRecord_profit_factor datas PyFloat.posInf
      · intro havg
        rw [metricsRecord_risk_reward, if_pos havg]
    · have hsum : (lossSizesOf datas).sum ≠ 0 := by
        rcases hor with hlos | hsum
        · exact absurd ((lossSizesOf_eq_nil_iff datas).mpr hlos) hl
        · exact hsum
      refine ⟨metricsRecord datas
          (PyFloat.val ((winSizesOf datas).sum / (lossSizesOf datas).sum)), ?_, ?_, ?_⟩
      · rw [hcalc]
        simp [metricsBody, hl, pydiv, hsum]
      · intro hlos
        exact absurd ((lossSizesOf_eq_nil_iff datas).mpr hlos) hl
      · intro havg
        rw [metricsRecord_risk_reward, if_pos havg]
  · intro ⟨hlos, hsum⟩
    rw [hcalc]
    exact (metricsBody_eq_none_iff datas).mpr
      ⟨fun hl => hlos ((lossSizesOf_eq_nil_iff datas).mp hl), hsum⟩

/-- C3 counterexample: dbZeroLoss holds a fully populated winning trade
(pnl 10) and a fully populated losing trade whose realized_pnl is exactly
0, so losers exist but sum(loss_sizes) == 0; the metrics computation
raises (returns none) instead of producing a record with sentinel
fields, refuting the claim that every divide-by-zero case yields a
defined sentinel. -/
theorem metrics_sentinels_counterexample :
    closedTradesOf dbZeroLoss 0 none none ≠ []
    ∧ (extractAll (closedTradesOf dbZeroLoss 0 none none)).isSome = true
    ∧ calculate_performance_metrics dbZeroLoss 0 none none = none := by decide

/-- Witness for metrics_sentinels: with a single winning closed trade the
metrics succeed, profit_factor is the +infinity sentinel and, the average
loss being zero, so is risk_reward_ratio. -/
theorem metrics_sentinels_witness :
    ∃ m, calculate_performance_metrics dbAllWin 0 none none = some m
      ∧ (losersOf datasAllWin = [] → m.profit_factor = PyFloat.posInf)
      ∧ (avgLossOf datasAllWin = 0 → m.risk_reward_ratio = PyFloat.posInf) :=
  (metrics_sentinels dbAllWin 0 none none datasAllWin (by decide) (by decide)).1
    (Or.inl (by decide))

lemma ite_gt_eq_max (r pk : ℚ) : (if r > pk then r else pk) = max pk r := by
  rcases le_or_lt r pk with h | h
  · rw [if_neg (not_lt.mpr h), max_eq_left h]
  · rw [if_pos h, max_eq_right h.le]

lemma mddGo_some (rs : List ℚ) : ∀ (pk m : ℚ),
    mddGo rs (some pk) m =
      List.foldl max m
        (List.zipWith (fun p c => if p > 0 then (p - c) / p else 0)
          (prefixMaxFrom pk rs) rs) := by
  induction rs with
  | nil => intro pk m; rfl
  | cons r rs ih =>
    intro pk m
    simp only [mddGo, prefixMaxFrom, List.zipWith_cons_cons, List.foldl_cons]
    rw [ite_gt_eq_max]
    exact ih (max pk r) _

lemma first_drawdown_zero (c : ℚ) : (if c > 0 then (c - c) / c else 0) = 0 := by
  simp

lemma maxDrawdownFrac_eq_listMax (cums : List ℚ) (h : cums ≠ []) :
    maxDrawdownFrac cums = listMax (drawdowns cums) := by
  rcases cums with _ | ⟨c, cs⟩
  · exact absurd rfl h
  · show mddGo (c :: cs) none 0 = listMax (drawdowns (c :: cs))
    simp only [mddGo, first_drawdown_zero]
    rw [mddGo_some]
    simp only [drawdowns, prefixMax, List.zipWith_cons_cons, first_drawdown_zero,
      listMax, max_self]

lemma cumsumFrom_ne_nil (acc : ℚ) (x : ℚ) (xs : List ℚ) :
    cumsumFrom acc (x :: xs) ≠ [] := by
  simp [cumsumFrom]

/-- C5: for every store whose filtered closed set is nonempty and whose
metrics computation returns a record, the max_drawdown field equals 100
times the maximum over positions of (peak - cumulative)/peak, the peak
being the running maximum of the cumulative realized-pnl sums and the
ratio taken as 0 whenever the peak is not positive. -/
theorem drawdown_formula (db : DBState) (sid : Nat) (sd ed : Option ℚ)
    (datas : List ClosedData) (m : PerformanceMetrics)
    (hex : extractAll (closedTradesOf db sid sd ed) = some datas)
    (hne : datas ≠ [])
    (hm : calculate_performance_metrics db sid sd ed = some m) :
    m.max_drawdown =
      100 * listMax (drawdowns (cumsum (datas.map (fun d => d.realized_pnl)))) := by
  have hclne : closedTradesOf db sid sd ed ≠ [] := by
    intro hc
    rw [hc] at hex
    simp only [extractAll, Option.some.injEq] at hex
    exact hne hex.symm
  have hcalc := calc_metrics_eq_body db sid sd ed datas hclne hex
  rw [hcalc] at hm
  have hcne : cumsum (datas.map (fun d => d.realized_pnl)) ≠ [] := by
    rcases hd : datas with _ | ⟨d, ds⟩
    · exact absurd hd hne
    · exact cumsumFrom_ne_nil 0 _ _
  have hmdd : ∀ pf : PyFloat, m = metricsRecord datas pf →
      m.max_drawdown = 100 * listMax (drawdowns (cumsum (datas.map (fun d => d.realized_pnl)))) := by
    intro pf hmr
    rw [hmr, metricsRecord_max_drawdown, maxDrawdownFrac_eq_listMax _ hcne, mul_comm]
  unfold metricsBody at hm
  split at hm
  · exact hmdd PyFloat.posInf (by simpa using hm.symm)
  · simp only [pydiv] at hm
    split at hm
    · exact absurd hm (by simp)
    · exact hmdd _ (by simpa using hm.symm)

/-- Witness for drawdown_formula: the pnl sequence 100, -50, 100, -120 has
cumulative sums 100, 50, 150, 30 and the computed max_drawdown is
(150 - 30)/150 * 100 = 80. -/
theorem drawdown_formula_witness :
    cumsum (datasDrawdown.map (fun d => d.realized_pnl)) = [100, 50, 150, 30]
    ∧ calculate_performance_metrics dbDrawdown 0 none none = some mDrawdown
    ∧ mDrawdown.max_drawdown =
        100 * listMax (drawdowns (cumsum (datasDrawdown.map (fun d => d.realized_pnl))))
    ∧ mDrawdown.max_drawdown = 80 :=
  ⟨by decide, by decide,
   drawdown_formula dbDrawdown 0 none none datasDrawdown mDrawdown
     (by decide) (by decide) (by decide),
   by decide⟩

lemma refreshList_none (oracle : String → Option ℚ) (sid : Nat) :
    ∀ {ts : List PaperTrade} {t : PaperTrade}, t ∈ ts →
    t.session_id = sid → t.status = TradeStatus.OPEN →
    oracle t.symbol = none → refreshList oracle sid ts = none := by
  intro ts
  induction ts with
  | nil => intro t h; simp at h
  | cons a ts ih =>
    intro t htm hsid hopen hfail
    rcases List.mem_cons.mp htm with rfl | hmem
    · have hrt : refreshTrade oracle t = none := by simp [refreshTrade, hfail]
      simp only [refreshList, if_pos (And.intro hsid hopen), hrt]
    · by_cases hc : a.session_id = sid ∧ a.status = TradeStatus.OPEN
      · simp only [refreshList, if_pos hc]
        cases hr : refreshTrade oracle a with
        | none => rfl
        | some a' => rw [ih hmem hsid hopen hfail]; rfl
      · simp only [refreshList, if_neg hc]
        rw [ih hmem hsid hopen hfail]
        rfl

/-- C4 (amended): update_unrealized_pnl has no per-trade exception
handling: if the price lookup fails for any OPEN trade of the session, the
exception escapes the loop before db.commit(), the whole batch is aborted
and no trade of the session — failing or not — gets its unrealized_pnl or
roi persisted; the run commits nothing (none). -/
theorem refresh_aborts (oracle : String → Option ℚ) (db : DBState) (sid : Nat)
    (t : PaperTrade) (ht : t ∈ db.trades) (hsid : t.session_id = sid)
    (hopen : t.status = TradeStatus.OPEN) (hfail : oracle t.symbol = none) :
    update_unrealized_pnl oracle db sid = none := by
  unfold update_unrealized_pnl
  rw [refreshList_none oracle sid ht hsid hopen hfail]
  rfl

/-- Witness for refresh_aborts: symbol A has no price, so refreshing
dbTwoOpen commits nothing. -/
theorem refresh_aborts_witness :
    update_unrealized_pnl oracleFailA dbTwoOpen 0 = none :=
  refresh_aborts oracleFailA dbTwoOpen 0 baseTrade (by decide) (by decide)
    (by decide) (by decide)

/-- C4 counterexample: dbTwoOpen holds OPEN trades on symbols A and B; the
oracle quotes B but fails on A. The claim says trade B is still refreshed
and persisted; in fact the update commits nothing at all — the failure
aborts the whole batch, leaving every trade stale. -/
theorem refresh_aborts_counterexample :
    oracleFailA "B" = some 5
    ∧ (dbTwoOpen.trades.filter (fun t => decide (t.symbol = "B"))).length = 1
    ∧ update_unrealized_pnl oracleFailA dbTwoOpen 0 = none := by decide

lemma refreshList_some (oracle : String → Option ℚ) (sid : Nat) :
    ∀ {ts ts' : List PaperTrade}, refreshList oracle sid ts = some ts' →
    List.Forall₂ (refreshSpec oracle sid) ts ts' := by
  intro ts
  induction ts with
  | nil =>
    intro ts' h
    simp only [refreshList, Option.some.injEq] at h
    rw [← h]
    exact List.Forall₂.nil
  | cons a ts ih =>
    intro ts' h
    simp only [refreshList] at h
    by_cases hc : a.session_id = sid ∧ a.status = TradeStatus.OPEN
    · rw [if_pos hc] at h
      cases hr : refreshTrade oracle a with
      | none => rw [hr] at h; exact absurd h (by simp)
      | some a' =>
        rw [hr] at h
        cases hrest : refreshList oracle sid ts with
        | none => rw [hrest] at h; exact absurd h (by simp)
        | some ts0 =>
          rw [hrest] at h
          simp only [Option.map_some', Option.some.injEq] at h
          rw [← h]
          refine List.Forall₂.cons ⟨fun hn => absurd hc hn, fun _ => ?_⟩ (ih hrest)
          simp only [refreshTrade] at hr
          cases hp : oracle a.symbol with
          | none => rw [hp] at hr; exact absurd hr (by simp)
          | some p =>
            rw [hp] at hr
            refine ⟨p, rfl, ?_⟩
            by_cases hbuy : a.side = TradeSide.BUY
            · simp [hbuy] at hr ⊢
              exact hr.symm
            · simp [hbuy] at hr ⊢
              exact hr.symm
    · rw [if_neg hc] at h
      cases hrest : refreshList oracle sid ts with
      | none => rw [hrest] at h; exact absurd h (by simp)
      | some ts0 =>
        rw [hrest] at h
        simp only [Option.map_some', Option.some.injEq] at h
        rw [← h]
        exact List.Forall₂.cons ⟨fun _ => rfl, fun hcc => absurd hcc hc⟩ (ih hrest)

/-- C9: a committed update_unrealized_pnl run leaves the session table
(balances, total_pnl) and the id counter untouched and rewrites each trade
row by refreshSpec — non-OPEN and other-session rows unchanged, OPEN rows
changed only in unrealized_pnl and roi_percentage, by the side-dependent
formulas; and those formulas agree with close_trade: refreshing a trade at
price p writes exactly the realized_pnl and roi_percentage that closing
the same trade at exit price p computes. -/
theorem refresh_frame_effect :
    (∀ (oracle : String → Option ℚ) (db : DBState) (sid : Nat) (db' : DBState),
      update_unrealized_pnl oracle db sid = some db' →
      db'.sessions = db.sessions ∧ db'.next_id = db.next_id ∧
      List.Forall₂ (refreshSpec oracle sid) db.trades db'.trades)
    ∧ (∀ (oracle : String → Option ℚ) (t t' : PaperTrade) (p : ℚ)
        (db : DBState) (tid : Nat) (now : ℚ) (tc : PaperTrade) (db2 : DBState),
        oracle t.symbol = some p →
        refreshTrade oracle t = some t' →
        db.trades.find? (fun x => decide (x.id = tid)) = some t →
        close_trade db tid p now = some (tc, db2) →
        t'.unrealized_pnl = tc.realized_pnl
          ∧ t'.roi_percentage = tc.roi_percentage) := by
  constructor
  · intro oracle db sid db' h
    unfold update_unrealized_pnl at h
    cases hr : refreshList oracle sid db.trades with
    | none => rw [hr] at h; exact absurd h (by simp)
    | some ts =>
      rw [hr] at h
      simp only [Option.map_some', Option.some.injEq] at h
      rw [← h]
      exact ⟨rfl, rfl, refreshList_some oracle sid hr⟩
  · intro oracle t t' p db tid now tc db2 hp hr hfind hclose
    obtain ⟨u, s, hu, hstat, hs, htc, hdb⟩ := close_trade_some hclose
    rw [hfind] at hu
    have hut : t = u := Option.some.inj hu
    subst hut
    simp only [refreshTrade, hp] at hr
    by_cases hbuy : t.side = TradeSide.BUY
    · rw [if_pos hbuy] at hr htc
      rw [← Option.some.inj hr, htc]
      exact ⟨rfl, rfl⟩
    · rw [if_neg hbuy] at hr htc
      rw [← Option.some.inj hr, htc]
      exact ⟨rfl, rfl⟩

/-- Witness for refresh_frame_effect: refreshing dbTwoOpen through a total
oracle commits, keeps the session table and counter, relates old and new
rows by refreshSpec; and refreshing baseTrade at price 12 writes the same
pnl and roi that closing it at exit price 12 realizes. -/
theorem refresh_frame_effect_witness :
    (dbTwoOpenRefreshed.sessions = dbTwoOpen.sessions
      ∧ dbTwoOpenRefreshed.next_id = dbTwoOpen.next_id
      ∧ List.Forall₂ (refreshSpec oracleAll12 0) dbTwoOpen.trades
          dbTwoOpenRefreshed.trades)
    ∧ (tRefreshed.unrealized_pnl = tcOneClosed.realized_pnl
      ∧ tRefreshed.roi_percentage = tcOneClosed.roi_percentage) :=
  ⟨refresh_frame_effect.1 oracleAll12 dbTwoOpen 0 dbTwoOpenRefreshed (by decide),
   refresh_frame_effect.2 oracleAll12 baseTrade tRefreshed 12 dbOneOpen 0 1
     tcOneClosed dbOneClosed (by decide) (by decide) (by decide) (by decide)⟩

lemma replaceSession_map_id (ss : List PaperTradingSession)
    (s' : PaperTradingSession) :
    (replaceSession ss s').map (fun x => x.id) = ss.map (fun x => x.id) := by
  simp only [replaceSession, List.map_map]
  apply List.map_congr_left
  intro r _
  by_cases h : r.id = s'.id
  · simp [h]
  · simp [h]

lemma replaceTrade_map_id (ts : List PaperTrade) (t' : PaperTrade) :
    (replaceTrade ts t').map (fun x => x.id) = ts.map (fun x => x.id) := by
  simp only [replaceTrade, List.map_map]
  apply List.map_congr_left
  intro r _
  by_cases h : r.id = t'.id
  · simp [h]
  · simp [h]

lemma find?_id_unique {ss : List PaperTradingSession}
    {s r : PaperTradingSession} {sid : Nat}
    (hnd : (ss.map (fun x => x.id)).Nodup)
    (hf : ss.find? (fun x => decide (x.id = sid)) = some s)
    (hr : r ∈ ss) (hid : r.id = s.id) : r = s :=
  List.inj_on_of_nodup_map hnd hr (List.mem_of_find?_eq_some hf) hid

lemma wf_stepOp (db : DBState) (op : Op) (h : wfDB db) : wfDB (stepOp db op) := by
  obtain ⟨hnds, hndt, hbound⟩ := h
  cases op with
  | create req now =>
    cases hc : create_trade db req now with
    | error e => simp [stepOp, hc]; exact ⟨hnds, hndt, hbound⟩
    | ok r =>
      obtain ⟨t, db'⟩ := r
      obtain ⟨s, hs, _, _, _, ht, hdb⟩ := create_trade_ok hc
      simp only [stepOp, hc]
      subst hdb
      refine ⟨by simpa [replaceSession_map_id] using hnds, ?_, ?_⟩
      · have htid : t.id = db.next_id := by rw [ht]
        rw [List.map_append]
        rw [List.nodup_append]
        refine ⟨hndt, by simp, ?_⟩
        intro i hi hi'
        simp only [List.map_cons, List.map_nil, List.mem_singleton, htid] at hi'
        obtain ⟨x, hx, rfl⟩ := List.mem_map.mp hi
        exact absurd hi' (Nat.ne_of_lt (hbound x hx))
      · intro x hx
        rcases List.mem_append.mp hx with hx | hx
        · exact Nat.lt_succ_of_lt (hbound x hx)
        · simp only [List.mem_singleton] at hx
          rw [hx, ht]
          exact Nat.lt_succ_self _
  | close tid p now =>
    cases hc : close_trade db tid p now with
    | none => simpa [stepOp, hc] using ⟨hnds, hndt, hbound⟩
    | some r =>
      obtain ⟨tc, db'⟩ := r
      obtain ⟨u, s, hu, hstat, hs, htc, hdb⟩ := close_trade_some hc
      simp only [stepOp, hc]
      subst hdb
      refine ⟨by simpa [replaceSession_map_id] using hnds,
        by simpa [replaceTrade_map_id] using hndt, ?_⟩
      intro x hx
      simp only [replaceTrade, List.mem_map] at hx
      obtain ⟨x₀, hx₀, hxeq⟩ := hx
      have : x.id = x₀.id := by
        rw [← hxeq]
        by_cases h : x₀.id = tc.id
        · simp [h]
        · simp [h]
      rw [this]
      exact hbound x₀ hx₀

lemma openBuyNotional_append (ts : List PaperTrade) (t : PaperTrade) (sid : Nat) :
    openBuyNotional (ts ++ [t]) sid = openBuyNotional ts sid +
      (if t.session_id = sid ∧ t.status = TradeStatus.OPEN ∧ t.side = TradeSide.BUY
       then t.entry_price * t.quantity else 0) := by
  simp [openBuyNotional]

lemma closedPnlSum_append (ts : List PaperTrade) (t : PaperTrade) (sid : Nat) :
    closedPnlSum (ts ++ [t]) sid = closedPnlSum ts sid +
      (if t.session_id = sid ∧ t.status = TradeStatus.CLOSED
       then t.realized_pnl.getD 0 else 0) := by
  simp [closedPnlSum]

lemma closedSellExitNotional_append (ts : List PaperTrade) (t : PaperTrade) (sid : Nat) :
    closedSellExitNotional (ts ++ [t]) sid = closedSellExitNotional ts sid +
      (if t.session_id = sid ∧ t.status = TradeStatus.CLOSED ∧ t.side = TradeSide.SELL
       then t.quantity * (t.exit_price.getD 0) else 0) := by
  simp [closedSellExitNotional]

lemma inv_create {db : DBState} {req : PaperTradeCreate} {now : ℚ}
    {t : PaperTrade} {db' : DBState}
    (hwf : wfDB db) (hinv : balanceConservation db)
    (h : create_trade db req now = .ok (t, db')) : balanceConservation db' := by
  obtain ⟨s, hs, hsym, hlim, hbal, ht, hdb⟩ := create_trade_ok h
  have hsid : s.id = req.session_id := by simpa using List.find?_some hs
  have hsmem : s ∈ db.sessions := List.mem_of_find?_eq_some hs
  have hbase := hinv s hsmem
  have htsid : t.session_id = req.session_id := by rw [ht]
  have htstat : t.status = TradeStatus.OPEN := by rw [ht]
  have htside : t.side = req.side := by rw [ht]
  have htprice : t.entry_price = req.entry_price := by rw [ht]
  have htqty : t.quantity = req.quantity := by rw [ht]
  subst hdb
  intro r hr
  obtain ⟨r₀, hr₀, hreq⟩ := mem_replaceSession hr
  have hSid : (if req.side = TradeSide.BUY then
      { s with current_balance := s.current_balance - req.entry_price * req.quantity }
      else s).id = s.id := by split <;> rfl
  rw [hSid] at hreq
  by_cases hcase : r₀.id = s.id
  · have hr₀s : r₀ = s := find?_id_unique hwf.1 hs hr₀ hcase
    rw [hr₀s, if_pos rfl] at hreq
    rw [hreq]
    by_cases hside : req.side = TradeSide.BUY
    · simp only [if_pos hside]
      simp only [openBuyNotional_append, closedPnlSum_append,
        closedSellExitNotional_append]
      have h1 : (t.session_id = s.id ∧ t.status = TradeStatus.OPEN
          ∧ t.side = TradeSide.BUY) :=
        ⟨htsid.trans hsid.symm, htstat, htside.trans hside⟩
      have h2 : ¬ (t.session_id = s.id ∧ t.status = TradeStatus.CLOSED) :=
        fun hcc => by rw [htstat] at hcc; exact absurd hcc.2 (by decide)
      have h3 : ¬ (t.session_id = s.id ∧ t.status = TradeStatus.CLOSED
          ∧ t.side = TradeSide.SELL) :=
        fun hcc => by rw [htstat] at hcc; exact absurd hcc.2.1 (by decide)
      rw [if_pos h1, if_neg h2, if_neg h3, htprice, htqty]
      simp only [add_zero]
      linarith [hbase]
    · simp only [if_neg hside]
      simp only [openBuyNotional_append, closedPnlSum_append,
        closedSellExitNotional_append]
      have h1 : ¬ (t.session_id = s.id ∧ t.status = TradeStatus.OPEN
          ∧ t.side = TradeSide.BUY) :=
        fun hcc => hside (htside.symm.trans hcc.2.2)
      have h2 : ¬ (t.session_id = s.id ∧ t.status = TradeStatus.CLOSED) :=
        fun hcc => by rw [htstat] at hcc; exact absurd hcc.2 (by decide)
      have h3 : ¬ (t.session_id = s.id ∧ t.status = TradeStatus.CLOSED
          ∧ t.side = TradeSide.SELL) :=
        fun hcc => by rw [htstat] at hcc; exact absurd hcc.2.1 (by decide)
      rw [if_neg h1, if_neg h2, if_neg h3]
      simp only [add_zero]
      linarith [hbase]
  · rw [if_neg hcase] at hreq
    rw [hreq]
    have hne : ¬ t.session_id = r₀.id := by
      rw [htsid]
      intro hcc
      exact hcase ((hsid.trans hcc).symm)
    have h1 : ¬ (t.session_id = r₀.id ∧ t.status = TradeStatus.OPEN
        ∧ t.side = TradeSide.BUY) := fun hcc => hne hcc.1
    have h2 : ¬ (t.session_id = r₀.id ∧ t.status = TradeStatus.CLOSED) :=
      fun hcc => hne hcc.1
    have h3 : ¬ (t.session_id = r₀.id ∧ t.status = TradeStatus.CLOSED
        ∧ t.side = TradeSide.SELL) := fun hcc => hne hcc.1
    simp only [openBuyNotional_append, closedPnlSum_append,
      closedSellExitNotional_append]
    rw [if_neg h1, if_neg h2, if_neg h3]
    simp only [add_zero]
    exact hinv r₀ hr₀

lemma inv_close {db : DBState} {tid : Nat} {p now : ℚ}
    {tc : PaperTrade} {db' : DBState}
    (hwf : wfDB db) (hinv : balanceConservation db)
    (h : close_trade db tid p now = some (tc, db')) : balanceConservation db' := by
  obtain ⟨u, s, hu, hstat, hs, htc, hdb⟩ := close_trade_some h
  have huid : u.id = tid := by simpa using List.find?_some hu
  have hsid : s.id = u.session_id := by simpa using List.find?_some hs
  have hsmem : s ∈ db.sessions := List.mem_of_find?_eq_some hs
  have hbase := hinv s hsmem
  have htcid : tc.id = tid := by rw [htc]; split <;> exact huid
  have htcsid : tc.session_id = u.session_id := by rw [htc]; split <;> rfl
  have htcstat : tc.status = TradeStatus.CLOSED := by rw [htc]; split <;> rfl
  have htcside : tc.side = u.side := by rw [htc]; split <;> rfl
  have htcq : tc.quantity = u.quantity := by rw [htc]; split <;> rfl
  have htcexit : tc.exit_price = some p := by rw [htc]; split <;> rfl
  have htcpnl : tc.realized_pnl = some (if u.side = TradeSide.BUY
      then u.quantity * p - u.quantity * u.entry_price
      else u.quantity * u.entry_price - u.quantity * p) := by
    rw [htc]; split <;> rename_i hb <;> simp [hb]
  set S : PaperTradingSession :=
    { s with
      current_balance := s.current_balance +
        (if u.side = TradeSide.BUY then u.quantity * p
         else u.quantity * u.entry_price)
      total_pnl := s.total_pnl +
        (if u.side = TradeSide.BUY then u.quantity * p - u.quantity * u.entry_price
         else u.quantity * u.entry_price - u.quantity * p) } with hS
  have hSid : S.id = s.id := by rw [hS]
  have hSinit : S.initial_balance = s.initial_balance := by rw [hS]
  have hSbal : S.current_balance = s.current_balance +
      (if u.side = TradeSide.BUY then u.quantity * p
       else u.quantity * u.entry_price) := by rw [hS]
  subst hdb
  intro r hr
  obtain ⟨r₀, hr₀, hreq⟩ := mem_replaceSession hr
  rw [hSid] at hreq
  have hOB := sum_map_replaceTrade (fun x =>
    if x.session_id = r₀.id ∧ x.status = TradeStatus.OPEN ∧ x.side = TradeSide.BUY
    then x.entry_price * x.quantity else 0) hwf.2.1 hu htcid
  have hCP := sum_map_replaceTrade (fun x =>
    if x.session_id = r₀.id ∧ x.status = TradeStatus.CLOSED
    then x.realized_pnl.getD 0 else 0) hwf.2.1 hu htcid
  have hSE := sum_map_replaceTrade (fun x =>
    if x.session_id = r₀.id ∧ x.status = TradeStatus.CLOSED ∧ x.side = TradeSide.SELL
    then x.quantity * (x.exit_price.getD 0) else 0) hwf.2.1 hu htcid
  by_cases hcase : r₀.id = s.id
  · have hr₀s : r₀ = s := find?_id_unique hwf.1 hs hr₀ hcase
    rw [hr₀s, if_pos rfl] at hreq
    rw [hreq]
    rw [hr₀s] at hOB hCP hSE
    have husid : u.session_id = s.id := hsid.symm
    simp only [openBuyNotional, closedPnlSum, closedSellExitNotional] at hbase ⊢
    rw [hSid, hSinit, hOB, hCP, hSE]
    simp only []
    have hut2 : (if u.session_id = s.id ∧ u.status = TradeStatus.CLOSED
        then u.realized_pnl.getD 0 else 0) = 0 :=
      if_neg (fun hcc => absurd (hstat.symm.trans hcc.2) (by decide))
    have hut3 : (if u.session_id = s.id ∧ u.status = TradeStatus.CLOSED
        ∧ u.side = TradeSide.SELL then u.quantity * (u.exit_price.getD 0) else 0) = 0 :=
      if_neg (fun hcc => absurd (hstat.symm.trans hcc.2.1) (by decide))
    have htct1 : (if tc.session_id = s.id ∧ tc.status = TradeStatus.OPEN
        ∧ tc.side = TradeSide.BUY then tc.entry_price * tc.quantity else 0) = 0 :=
      if_neg (fun hcc => absurd (htcstat.symm.trans hcc.2.1) (by decide))
    have htct2 : (if tc.session_id = s.id ∧ tc.status = TradeStatus.CLOSED
        then tc.realized_pnl.getD 0 else 0) =
        (if u.side = TradeSide.BUY then u.quantity * p - u.quantity * u.entry_price
         else u.quantity * u.entry_price - u.quantity * p) := by
      rw [if_pos ⟨htcsid.trans husid, htcstat⟩, htcpnl]
      rfl
    rw [hut2, hut3, htct1, htct2]
    by_cases hside : u.side = TradeSide.BUY
    · have hut1 : (if u.session_id = s.id ∧ u.status = TradeStatus.OPEN
          ∧ u.side = TradeSide.BUY then u.entry_price * u.quantity else 0) =
          u.entry_price * u.quantity := if_pos ⟨husid, hstat, hside⟩
      have htct3 : (if tc.session_id = s.id ∧ tc.status = TradeStatus.CLOSED
          ∧ tc.side = TradeSide.SELL then tc.quantity * (tc.exit_price.getD 0) else 0)
          = 0 := by
        refine if_neg (fun hcc => ?_)
        have := htcside.symm.trans hcc.2.2
        rw [hside] at this
        exact absurd this (by decide)
      rw [hut1, htct3, if_pos hside, if_pos hside]
      have hcomm : u.entry_price * u.quantity = u.quantity * u.entry_price :=
        mul_comm _ _
      linarith [hbase]
    · have hut1 : (if u.session_id = s.id ∧ u.status = TradeStatus.OPEN
          ∧ u.side = TradeSide.BUY then u.entry_price * u.quantity else 0) = 0 :=
        if_neg (fun hcc => hside hcc.2.2)
      have htct3 : (if tc.session_id = s.id ∧ tc.status = TradeStatus.CLOSED
          ∧ tc.side = TradeSide.SELL then tc.quantity * (tc.exit_price.getD 0) else 0)
          = u.quantity * p := by
        have hsell : tc.side = TradeSide.SELL := by
          rw [htcside]
          cases hv : u.side with
          | BUY => exact absurd hv hside
          | SELL => rfl
        rw [if_pos ⟨htcsid.trans husid, htcstat, hsell⟩, htcq, htcexit]
        rfl
      rw [hut1, htct3, if_neg hside, if_neg hside]
      linarith [hbase]
  · rw [if_neg hcase] at hreq
    rw [hreq]
    have hbase₀ := hinv r₀ hr₀
    have hune : ¬ u.session_id = r₀.id := fun hcc => hcase ((hsid.trans hcc).symm)
    have htcne : ¬ tc.session_id = r₀.id := fun hcc => hune (htcsid.symm.trans hcc)
    have hut1 : (if u.session_id = r₀.id ∧ u.status = TradeStatus.OPEN
        ∧ u.side = TradeSide.BUY then u.entry_price * u.quantity else 0) = 0 :=
      if_neg (fun hcc => hune hcc.1)
    have hut2 : (if u.session_id = r₀.id ∧ u.status = TradeStatus.CLOSED
        then u.realized_pnl.getD 0 else 0) = 0 := if_neg (fun hcc => hune hcc.1)
    have hut3 : (if u.session_id = r₀.id ∧ u.status = TradeStatus.CLOSED
        ∧ u.side = TradeSide.SELL then u.quantity * (u.exit_price.getD 0) else 0) = 0 :=
      if_neg (fun hcc => hune hcc.1)
    have htct1 : (if tc.session_id = r₀.id ∧ tc.status = TradeStatus.OPEN
        ∧ tc.side = TradeSide.BUY then tc.entry_price * tc.quantity else 0) = 0 :=
      if_neg (fun hcc => htcne hcc.1)
    have htct2 : (if tc.session_id = r₀.id ∧ tc.status = TradeStatus.CLOSED
        then tc.realized_pnl.getD 0 else 0) = 0 := if_neg (fun hcc => htcne hcc.1)
    have htct3 : (if tc.session_id = r₀.id ∧ tc.status = TradeStatus.CLOSED
        ∧ tc.side = TradeSide.SELL then tc.quantity * (tc.exit_price.getD 0) else 0)
        = 0 := if_neg (fun hcc => htcne hcc.1)
    simp only [openBuyNotional, closedPnlSum, closedSellExitNotional] at hbase₀ ⊢
    rw [hOB, hCP, hSE]
    simp only []
    rw [hut1, hut2, hut3, htct1, htct2, htct3]
    simp only [sub_zero, add_zero]
    exact hbase₀

lemma inv_stepOp (db : DBState) (op : Op)
    (hwf : wfDB db) (hinv : balanceConservation db) :
    balanceConservation (stepOp db op) := by
  cases op with
  | create req now =>
    cases hc : create_trade db req now with
    | error e => simpa [stepOp, hc] using hinv
    | ok r =>
      obtain ⟨t, db'⟩ := r
      simpa [stepOp, hc] using inv_create hwf hinv hc
  | close tid p now =>
    cases hc : close_trade db tid p now with
    | none => simpa [stepOp, hc] using hinv
    | some r =>
      obtain ⟨tc, db'⟩ := r
      simpa [stepOp, hc] using inv_close hwf hinv hc

/-- C1 (amended): over any sequence of create_trade and close_trade
operations on a well-formed store, every session keeps satisfying
current_balance + Σ(entry notional of OPEN BUY trades) =
initial_balance + Σ realized_pnl(CLOSED trades)
 + Σ(exit notional of CLOSED SELL trades).
The extra last term is forced by close_trade's SELL branch, which credits
the balance with entry_value while recording entry_value - exit_value as
pnl; the specification's identity (without that term) does not survive a
SELL close. Since runOps ranges over every operation list, the identity
holds after each operation of the sequence. -/
theorem balance_conservation_run (db : DBState) (ops : List Op)
    (hwf : wfDB db) (hinv : balanceConservation db) :
    balanceConservation (runOps db ops) := by
  induction ops generalizing db with
  | nil => exact hinv
  | cons op ops ih =>
    exact ih (stepOp db op) (wf_stepOp db op hwf) (inv_stepOp db op hwf hinv)

/-- Witness for balance_conservation_run: a fresh session through a SELL
open and close keeps the amended identity. -/
theorem balance_conservation_run_witness :
    wfDB dbEmpty ∧ balanceConservation dbEmpty
    ∧ balanceConservation (runOps dbEmpty opsSell) :=
  ⟨by decide, by decide,
   balance_conservation_run dbEmpty opsSell (by decide) (by decide)⟩

/-- C1 counterexample: the specification's identity (without the SELL exit
term) holds of the fresh store but is violated after opening a SELL trade
(entry 10, quantity 1) and closing it at exit price 5: the balance is
credited with the entry notional 10 while only 5 is recorded as pnl, so
current_balance = 1010 but initial_balance + Σ realized_pnl = 1005. -/
theorem balance_conservation_counterexample :
    wfDB dbEmpty ∧ claimedConservation dbEmpty
    ∧ ¬ claimedConservation (runOps dbEmpty opsSell) := by decide
